import Mathlib

/-!
Verification of the opencensus-cpp trace span core against its
specification.

The repository provides `opencensus/trace/span.h`: the public declaration
of `Span`, `StartSpanOptions` and the template bodies of the batched
attribute helpers.  The implementation files (`span.cc`, `span_impl.*`,
`span_context.*`, `trace_params.*`) are not part of the source excerpt,
so the corresponding operations are modelled from the specification, as
marked in each doc comment.  The template bodies that ARE in `span.h`
(`AddAttributes`, `AddAnnotation`, `AddParentLinkWithSize`,
`AddChildLinkWithSize`, `AddAttributeRefToVector`) are embedded directly
from the source.
-/

namespace OpenCensus

/-- Attribute values (from `attribute_value_ref.h`, referenced by
`span.h`): one of string, bool, signed 64-bit integer, double.  The
double is carried as its raw 64-bit pattern, since no claim computes
with it. -/
inductive AttributeValue where
  | stringVal (s : String)
  | boolVal (b : Bool)
  | intVal (i : Int)
  | doubleVal (bits : Nat)
deriving DecidableEq

/-- `AttributeRef` from `span.h` line 47: a pair of attribute key and
value reference. -/
abbrev AttributeRef : Type := String × AttributeValue

/-- The default-constructed `AttributeRef` produced by
`std::vector<const AttributeRef> v(size)`: an empty string key and a
default value reference. -/
def defaultAttributeRef : AttributeRef := ("", AttributeValue.stringVal "")

/-- Modelled from the spec: `SpanContext` from `span_context.h` (not in
the source excerpt): immutable identity of a span, made of a 128-bit
trace id, a 64-bit span id, the sampled flag and an opaque trace-state
string. -/
structure SpanContext where
  traceId : Nat
  spanId : Nat
  sampled : Bool
  traceState : String
deriving DecidableEq

/-- Modelled from the spec: the zero/invalid context held by a blank
span. -/
def blankContext : SpanContext :=
  { traceId := 0, spanId := 0, sampled := false, traceState := "" }

/-- Modelled from the spec: the `IsValid()`-style predicate on
`SpanContext` (from `span_context.h`, not in the source excerpt) that
distinguishes a real context from the blank/zero one. -/
def SpanContext.isValid (c : SpanContext) : Bool :=
  c.traceId != 0 && c.spanId != 0

/-- Canonical status codes (from `status_code.h`, referenced by
`span.h`). -/
inductive StatusCode where
  | ok
  | cancelled
  | unknown
  | invalidArgument
  | deadlineExceeded
  | notFound
  | alreadyExists
  | permissionDenied
  | resourceExhausted
  | failedPrecondition
  | aborted
  | outOfRange
  | unimplemented
  | internal
  | unavailable
  | dataLoss
  | unauthenticated
deriving DecidableEq

/-- A timed annotation record (spec section 3): timestamp, description
and an attachment attribute list.  (`Annotation` in the C++ source.) -/
structure Annot where
  time : Nat
  description : String
  attributes : List AttributeRef
deriving DecidableEq

/-- Direction tag of a message event. -/
inductive MessageEventType where
  | sent
  | received
deriving DecidableEq

/-- A message event record (spec section 3): direction, message id,
compressed and uncompressed sizes, timestamp. -/
structure MessageEvent where
  dir : MessageEventType
  messageId : Nat
  compressedSize : Nat
  uncompressedSize : Nat
  time : Nat
deriving DecidableEq

/-- A link record (spec section 3): target span context plus an
attachment attribute list.  Parent links and child links are kept in
logically separate sequences, so no direction tag is stored here. -/
structure Link where
  context : SpanContext
  attributes : List AttributeRef
deriving DecidableEq

/-- Modelled from the spec: the bounded attribute mapping of
`SpanImpl` (from `span_impl.h`, not in the source excerpt).  Entries
are kept in last-touch order, oldest first.  Inserting an existing key
updates its value in place without consuming a new eviction slot and
resets its eviction age; inserting a fresh key beyond capacity evicts
the oldest inserted, not-recently-updated entry. -/
def upsertAttr (maxAttrs : Nat) (m : List AttributeRef) (kv : AttributeRef) :
    List AttributeRef :=
  if m.any (fun e => e.1 == kv.1) then
    m.filter (fun e => e.1 != kv.1) ++ [kv]
  else if m.length < maxAttrs then
    m ++ [kv]
  else
    m.drop 1 ++ [kv]

/-- Modelled from the spec: the bounded FIFO sequence used for
annotations, message events and links (from `span_impl.h`, not in the
source excerpt): insertion appends at the back; on overflow the oldest
entry (the front) is evicted. -/
def fifoPush (maxLen : Nat) (l : List α) (x : α) : List α :=
  if l.length < maxLen then l ++ [x] else l.drop 1 ++ [x]

/-- Modelled from the spec: a pluggable sampler
(`ShouldSample(trace-id, parent-sampled, link-contexts) -> bool`,
spec section 6). -/
def Sampler : Type := Nat → Bool → List SpanContext → Bool

/-- Modelled from the spec: the process-wide `TraceParams` limits and
default sampling policy (from `trace_params.h`, not in the source
excerpt).  `defaultSampler = none` models a misconfigured or
unavailable default sampler. -/
structure TraceParams where
  maxAttributes : Nat
  maxAnnotations : Nat
  maxMessageEvents : Nat
  maxLinks : Nat
  defaultSampler : Option Sampler

/-- Modelled from the spec: the mutable span record `SpanImpl` (from
`span_impl.h`, not in the source excerpt): name, timestamps, status,
the four bounded containers, and the `ended` flag. -/
structure SpanImpl where
  name : String
  startTime : Nat
  endTime : Option Nat
  statusCode : StatusCode
  statusMessage : String
  attributes : List AttributeRef
  annotations : List Annot
  messageEvents : List MessageEvent
  parentLinks : List Link
  childLinks : List Link
  ended : Bool
deriving DecidableEq

/-- Modelled from the spec: a fresh `SpanImpl` as materialized by
`StartSpan` for a recording span. -/
def SpanImpl.mk0 (name : String) (startTime : Nat) : SpanImpl :=
  { name := name, startTime := startTime, endTime := none,
    statusCode := StatusCode.ok, statusMessage := "",
    attributes := [], annotations := [], messageEvents := [],
    parentLinks := [], childLinks := [], ended := false }

/-- Modelled from the spec: `SpanImpl::AddAttribute` — under the span
lock, a no-op if `ended`, otherwise the bounded-map insertion rule. -/
def SpanImpl.addAttribute (maxAttrs : Nat) (impl : SpanImpl)
    (kv : AttributeRef) : SpanImpl :=
  if impl.ended then impl
  else { impl with attributes := upsertAttr maxAttrs impl.attributes kv }

/-- Modelled from the spec: `SpanImpl::AddAttributes` — the batched
variant applies all pairs as a single locked operation. -/
def SpanImpl.addAttributes (maxAttrs : Nat) (impl : SpanImpl)
    (kvs : List AttributeRef) : SpanImpl :=
  if impl.ended then impl
  else { impl with attributes := kvs.foldl (upsertAttr maxAttrs) impl.attributes }

/-- Modelled from the spec: `SpanImpl::AddAnnotation` — a no-op if
`ended`, otherwise FIFO insertion into the bounded annotation
sequence. -/
def SpanImpl.addAnnot (maxAnnots : Nat) (impl : SpanImpl) (time : Nat)
    (description : String) (attrs : List AttributeRef) : SpanImpl :=
  let a : Annot := { time := time, description := description, attributes := attrs }
  if impl.ended then impl
  else { impl with annotations := fifoPush maxAnnots impl.annotations a }

/-- Modelled from the spec: the shared body of
`SpanImpl::AddSentMessageEvent` / `AddReceivedMessageEvent` — a no-op
if `ended`, otherwise FIFO insertion into the bounded message-event
sequence. -/
def SpanImpl.addMessageEvent (maxEvents : Nat) (impl : SpanImpl)
    (e : MessageEvent) : SpanImpl :=
  if impl.ended then impl
  else { impl with messageEvents := fifoPush maxEvents impl.messageEvents e }

/-- Modelled from the spec: `SpanImpl::AddParentLink` — a no-op if
`ended`, otherwise FIFO insertion into the bounded parent-link
sequence. -/
def SpanImpl.addParentLink (maxLinks : Nat) (impl : SpanImpl)
    (ctx : SpanContext) (attrs : List AttributeRef) : SpanImpl :=
  let l : Link := { context := ctx, attributes := attrs }
  if impl.ended then impl
  else { impl with parentLinks := fifoPush maxLinks impl.parentLinks l }

/-- Modelled from the spec: `SpanImpl::AddChildLink` — a no-op if
`ended`, otherwise FIFO insertion into the bounded child-link
sequence. -/
def SpanImpl.addChildLink (maxLinks : Nat) (impl : SpanImpl)
    (ctx : SpanContext) (attrs : List AttributeRef) : SpanImpl :=
  let l : Link := { context := ctx, attributes := attrs }
  if impl.ended then impl
  else { impl with childLinks := fifoPush maxLinks impl.childLinks l }

/-- Modelled from the spec: `SpanImpl::SetStatus` — a no-op if `ended`,
otherwise overwrites the single status field unconditionally (last
write wins). -/
def SpanImpl.setStatus (impl : SpanImpl) (code : StatusCode)
    (message : String) : SpanImpl :=
  if impl.ended then impl
  else { impl with statusCode := code, statusMessage := message }

/-- Modelled from the spec: `SpanImpl::End` — if not yet ended, sets
`ended`, stamps the end timestamp and freezes the record; ending an
already-ended record is a no-op. -/
def SpanImpl.endImpl (impl : SpanImpl) (time : Nat) : SpanImpl :=
  if impl.ended then impl
  else { impl with ended := true, endTime := some time }

/-- The public `Span` handle (`span.h` lines 77, 200, 258): a
`SpanContext` plus a nullable reference to a `SpanImpl`; the reference
is null for spans that are not recording events. -/
structure Span where
  context : SpanContext
  spanImpl : Option SpanImpl
deriving DecidableEq

/-- `Span::BlankSpan` (`span.h` line 81): a no-op span with an invalid
context and no `SpanImpl`. -/
def Span.blankSpan : Span := { context := blankContext, spanImpl := none }

/-- Modelled from the spec: `Span::IsSampled` (`span.h` line 184,
implementation not in the source excerpt) — a read of the sampled flag
fixed at construction time, carried in the context. -/
def Span.IsSampled (s : Span) : Bool := s.context.sampled

/-- Modelled from the spec: `Span::IsRecording` (`span.h` line 189,
implementation not in the source excerpt) — true exactly when the span
holds a `SpanImpl`. -/
def Span.IsRecording (s : Span) : Bool := s.spanImpl.isSome

/-- Modelled from the spec: every `Span` mutator delegates to the held
`SpanImpl` if non-null, otherwise it is a no-op. -/
def Span.addAttribute (params : TraceParams) (s : Span)
    (kv : AttributeRef) : Span :=
  let f := fun (impl : SpanImpl) => impl.addAttribute params.maxAttributes kv
  { s with spanImpl := Option.map f s.spanImpl }

/-- Modelled from the spec: `Span::AddAttributes` delegation. -/
def Span.addAttributes (params : TraceParams) (s : Span)
    (kvs : List AttributeRef) : Span :=
  let f := fun (impl : SpanImpl) => impl.addAttributes params.maxAttributes kvs
  { s with spanImpl := Option.map f s.spanImpl }

/-- Modelled from the spec: `Span::AddAnnotation` delegation. -/
def Span.addAnnot (params : TraceParams) (s : Span) (time : Nat)
    (description : String) (attrs : List AttributeRef) : Span :=
  let f := fun (impl : SpanImpl) => impl.addAnnot params.maxAnnotations time description attrs
  { s with spanImpl := Option.map f s.spanImpl }

/-- Modelled from the spec: `Span::AddSentMessageEvent` delegation
(`span.h` lines 142-144). -/
def Span.addSentMessageEvent (params : TraceParams) (s : Span)
    (time messageId compressedSize uncompressedSize : Nat) : Span :=
  let e : MessageEvent :=
    { dir := MessageEventType.sent, messageId := messageId,
      compressedSize := compressedSize,
      uncompressedSize := uncompressedSize, time := time }
  let f := fun (impl : SpanImpl) => impl.addMessageEvent params.maxMessageEvents e
  { s with spanImpl := Option.map f s.spanImpl }

/-- Modelled from the spec: `Span::AddReceivedMessageEvent` delegation
(`span.h` lines 145-147). -/
def Span.addReceivedMessageEvent (params : TraceParams) (s : Span)
    (time messageId compressedSize uncompressedSize : Nat) : Span :=
  let e : MessageEvent :=
    { dir := MessageEventType.received, messageId := messageId,
      compressedSize := compressedSize,
      uncompressedSize := uncompressedSize, time := time }
  let f := fun (impl : SpanImpl) => impl.addMessageEvent params.maxMessageEvents e
  { s with spanImpl := Option.map f s.spanImpl }

/-- Modelled from the spec: `Span::AddParentLink` delegation. -/
def Span.addParentLink (params : TraceParams) (s : Span)
    (ctx : SpanContext) (attrs : List AttributeRef) : Span :=
  let f := fun (impl : SpanImpl) => impl.addParentLink params.maxLinks ctx attrs
  { s with spanImpl := Option.map f s.spanImpl }

/-- Modelled from the spec: `Span::AddChildLink` delegation. -/
def Span.addChildLink (params : TraceParams) (s : Span)
    (ctx : SpanContext) (attrs : List AttributeRef) : Span :=
  let f := fun (impl : SpanImpl) => impl.addChildLink params.maxLinks ctx attrs
  { s with spanImpl := Option.map f s.spanImpl }

/-- Modelled from the spec: `Span::SetStatus` delegation (`span.h`
line 173). -/
def Span.setStatus (s : Span) (code : StatusCode) (message : String) : Span :=
  let f := fun (impl : SpanImpl) => impl.setStatus code message
  { s with spanImpl := Option.map f s.spanImpl }

/-- Modelled from the spec: `Span::End` (`span.h` line 177) — freezes
the held record; a no-op on spans without a `SpanImpl`. -/
def Span.endSpan (s : Span) (time : Nat) : Span :=
  let f := fun (impl : SpanImpl) => impl.endImpl time
  { s with spanImpl := Option.map f s.spanImpl }

/-- `StartSpanOptions` (`span.h` lines 50-74): the sampler to use
(null means the default sampler from `TraceConfig`), the
`record_events` flag, and pointers to parent spans in other traces. -/
structure StartSpanOptions where
  sampler : Option Sampler
  recordEvents : Bool
  parentLinks : List Span

/-- Default-constructed `StartSpanOptions` (`span.h` lines 51-57):
null sampler, `record_events = false`, no parent links. -/
def StartSpanOptions.default0 : StartSpanOptions :=
  { sampler := none, recordEvents := false, parentLinks := [] }

/-- Modelled from the spec: the effective sampler of a start call — the
explicitly supplied one, else the process-wide default from
`TraceParams`; none resolvable when both are absent. -/
def effectiveSampler (opts : StartSpanOptions) (params : TraceParams) :
    Option Sampler :=
  match opts.sampler with
  | some s => some s
  | none => params.defaultSampler

/-- Modelled from the spec: the sampler-based sampling decision —
invoke the effective sampler with trace id, parent-sampled flag and
link contexts; fail closed (false) when no sampler is resolvable. -/
def samplerDecision (opts : StartSpanOptions) (params : TraceParams)
    (traceId : Nat) (parentSampled : Bool) (linkCtxs : List SpanContext) :
    Bool :=
  match effectiveSampler opts params with
  | some s => s traceId parentSampled linkCtxs
  | none => false

/-- Modelled from the spec: the common tail of both start entry points
(spec section 4.2 steps 3-4): given the inherited-sampled flag and the
new context's ids, compute the sampling decision, set
`is_recording = is_sampled || record_events`, materialize a `SpanImpl`
and register the span as running only when recording. -/
def startSpanCommon (params : TraceParams) (opts : StartSpanOptions)
    (name : String) (startTime : Nat) (traceId spanId : Nat)
    (parentSampled : Bool) (traceState : String)
    (running : List SpanContext) : Span × List SpanContext :=
  let linkCtxs := opts.parentLinks.map (fun p => p.context)
  let sampled :=
    if parentSampled then true
    else samplerDecision opts params traceId parentSampled linkCtxs
  let recording := sampled || opts.recordEvents
  let ctx : SpanContext :=
    { traceId := traceId, spanId := spanId, sampled := sampled,
      traceState := traceState }
  let impl : Option SpanImpl :=
    if recording then some (SpanImpl.mk0 name startTime) else none
  let running2 := if recording then running ++ [ctx] else running
  ({ context := ctx, spanImpl := impl }, running2)

/-- Modelled from the spec: `Span::StartSpan` (`span.h` lines 94-95,
implementation not in the source excerpt), spec section 4.2.  `fresh`
supplies the generated trace id and span id; a root span (null parent)
uses the fresh trace id, a child inherits the parent's.  A sampled
local parent forces `is_sampled = true` without consulting the
sampler.  Also returns the updated running-span registry. -/
def Span.startSpan (params : TraceParams) (fresh : Nat × Nat)
    (name : String) (startTime : Nat) (parent : Option Span)
    (opts : StartSpanOptions) (running : List SpanContext) :
    Span × List SpanContext :=
  match parent with
  | none =>
    startSpanCommon params opts name startTime fresh.1 fresh.2 false ""
      running
  | some p =>
    startSpanCommon params opts name startTime p.context.traceId fresh.2
      p.context.sampled p.context.traceState running

/-- Modelled from the spec: `Span::StartSpanWithRemoteParent` (`span.h`
lines 98-100, implementation not in the source excerpt), spec section
4.2 step 2: a sampled remote parent context forces
`is_sampled = true`; the child joins the remote trace. -/
def Span.startSpanWithRemoteParent (params : TraceParams) (fresh : Nat × Nat)
    (name : String) (startTime : Nat) (parentCtx : SpanContext)
    (opts : StartSpanOptions) (running : List SpanContext) :
    Span × List SpanContext :=
  startSpanCommon params opts name startTime parentCtx.traceId fresh.2
    parentCtx.sampled parentCtx.traceState running

/-- One public mutator call on a `Span` handle (the operations listed
in `span.h` lines 102-177), reified so that properties can quantify
over arbitrary call sequences. -/
inductive SpanOp where
  | attrOp (kv : AttributeRef)
  | attrsOp (kvs : List AttributeRef)
  | annotOp (time : Nat) (description : String) (attrs : List AttributeRef)
  | sentOp (time messageId compressedSize uncompressedSize : Nat)
  | recvOp (time messageId compressedSize uncompressedSize : Nat)
  | parentLinkOp (ctx : SpanContext) (attrs : List AttributeRef)
  | childLinkOp (ctx : SpanContext) (attrs : List AttributeRef)
  | statusOp (code : StatusCode) (message : String)
  | endOp (time : Nat)

/-- Interpretation of one reified call on a span handle. -/
def Span.applyOp (params : TraceParams) (s : Span) (op : SpanOp) : Span :=
  match op with
  | SpanOp.attrOp kv => s.addAttribute params kv
  | SpanOp.attrsOp kvs => s.addAttributes params kvs
  | SpanOp.annotOp t d attrs => s.addAnnot params t d attrs
  | SpanOp.sentOp t id cs us => s.addSentMessageEvent params t id cs us
  | SpanOp.recvOp t id cs us =>
    s.addReceivedMessageEvent params t id cs us
  | SpanOp.parentLinkOp ctx attrs => s.addParentLink params ctx attrs
  | SpanOp.childLinkOp ctx attrs => s.addChildLink params ctx attrs
  | SpanOp.statusOp c msg => s.setStatus c msg
  | SpanOp.endOp t => s.endSpan t

/-- Whether a reified call is one of the eight mutators (everything
except `End`). -/
def SpanOp.isMutator (op : SpanOp) : Bool :=
  match op with
  | SpanOp.endOp _ => false
  | _ => true

/-- Embedded from the source, `span.h` lines 114-122
(`Span::AddAttributes`): the call builds
`std::vector<const AttributeRef> attributes_ref(size)` with
`size = sizeof...(attributes) + 1`, which value-initializes `size`
default-constructed elements, and then `AddAttributeRefToVector`
(`span.h` lines 244-252) appends each argument pair in order with
`push_back`.  The resulting vector is handed to
`AddAttributesInternal`. -/
def addAttributesVector (attrs : List AttributeRef) : List AttributeRef :=
  List.replicate (attrs.length + 1) defaultAttributeRef ++ attrs

/-- Embedded from the source, `span.h` lines 130-138
(`Span::AddAnnotation`): same construction as `AddAttributes` —
`size = sizeof...(attributes) + 1` default-constructed elements
followed by the argument pairs, handed to `AddAnnotationInternal`. -/
def addAnnotVector (attrs : List AttributeRef) : List AttributeRef :=
  List.replicate (attrs.length + 1) defaultAttributeRef ++ attrs

/-- Embedded from the source, `span.h` lines 155-160 and 202-216
(`Span::AddParentLink` via `AddParentLinkWithSize`): with
`N = sizeof...(attributes)` the general template builds
`std::vector<const AttributeRef> attributes_ref(N)` (N
default-constructed elements) and appends the argument pairs; the
`N = 0` specialization passes the empty list.  The result is handed to
`AddParentLinkInternal`.  `AddChildLink` (`span.h` lines 165-170 and
218-231) is identical. -/
def addLinkVector (attrs : List AttributeRef) : List AttributeRef :=
  if attrs.length = 0 then []
  else List.replicate attrs.length defaultAttributeRef ++ attrs

/-! ### Helper definitions shared by the theorems -/

/-- The list of keys of an attribute mapping, in stored order. -/
def keysOf (m : List AttributeRef) : List String := m.map (fun e => e.1)

/-- Lookup of an attribute key: the value of the first entry whose key
matches. -/
def lookupAttr (k : String) (m : List AttributeRef) : Option AttributeValue :=
  (m.find? (fun e => e.1 == k)).map (fun e => e.2)

/-- A sampler that always declines (used as a concrete input). -/
def falseSampler : Sampler := fun _ _ _ => false

/-- A sampler that always accepts (used as a concrete input). -/
def trueSampler : Sampler := fun _ _ _ => true

/-- Concrete trace parameters whose samplers always decline. -/
def paramsDecline : TraceParams :=
  { maxAttributes := 2, maxAnnotations := 1, maxMessageEvents := 1,
    maxLinks := 1, defaultSampler := some falseSampler }

/-- Concrete trace parameters with no default sampler. -/
def paramsNoSampler : TraceParams :=
  { maxAttributes := 2, maxAnnotations := 1, maxMessageEvents := 1,
    maxLinks := 1, defaultSampler := none }

/-- A concrete span handle whose context is sampled (used as a parent
input). -/
def sampledParentSpan : Span :=
  { context := { traceId := 1, spanId := 2, sampled := true, traceState := "" },
    spanImpl := none }

/-- A concrete span handle whose context is not sampled. -/
def unsampledParentSpan : Span :=
  { context := { traceId := 1, spanId := 2, sampled := false, traceState := "" },
    spanImpl := none }

/-! ### Lemmas about ended records -/

/-- After `End`, the `ended` flag is set. -/
theorem SpanImpl.endImpl_ended (impl : SpanImpl) (t : Nat) :
    (impl.endImpl t).ended = true := by
  unfold SpanImpl.endImpl
  cases h : impl.ended <;> simp [h]

/-- Every `SpanImpl` mutator is the identity on an ended record. -/
theorem SpanImpl.mutators_ended (impl : SpanImpl) (h : impl.ended = true) :
    (∀ maxA kv, impl.addAttribute maxA kv = impl)
    ∧ (∀ maxA kvs, impl.addAttributes maxA kvs = impl)
    ∧ (∀ maxN t d attrs, impl.addAnnot maxN t d attrs = impl)
    ∧ (∀ maxE e, impl.addMessageEvent maxE e = impl)
    ∧ (∀ maxL ctx attrs, impl.addParentLink maxL ctx attrs = impl)
    ∧ (∀ maxL ctx attrs, impl.addChildLink maxL ctx attrs = impl)
    ∧ (∀ c msg, impl.setStatus c msg = impl) := by
  refine ⟨?_, ?_, ?_, ?_, ?_, ?_, ?_⟩ <;> intros <;>
    simp [SpanImpl.addAttribute, SpanImpl.addAttributes, SpanImpl.addAnnot,
      SpanImpl.addMessageEvent, SpanImpl.addParentLink, SpanImpl.addChildLink,
      SpanImpl.setStatus, h]

/-- Claim C1: for every span that has been ended, every subsequent
mutator call (`AddAttribute`, `AddAttributes`, `AddAnnotation`,
`AddSentMessageEvent`, `AddReceivedMessageEvent`, `AddParentLink`,
`AddChildLink`, `SetStatus`) is a silent no-op: the span state visible
to the exporter after the call equals its state immediately after
`End()` was called. -/
theorem spec_C1_end_freezes (params : TraceParams) (s : Span) (t : Nat)
    (op : SpanOp) (h : op.isMutator = true) :
    Span.applyOp params (s.endSpan t) op = s.endSpan t := by
  obtain ⟨ctx, impl?⟩ := s
  cases impl? with
  | none =>
    cases op <;> simp [Span.endSpan, Span.applyOp, Span.addAttribute,
      Span.addAttributes, Span.addAnnot, Span.addSentMessageEvent,
      Span.addReceivedMessageEvent, Span.addParentLink, Span.addChildLink,
      Span.setStatus]
  | some impl =>
    have hend : (impl.endImpl t).ended = true := SpanImpl.endImpl_ended impl t
    have hm := SpanImpl.mutators_ended (impl.endImpl t) hend
    cases op with
    | attrOp kv =>
      simp [Span.applyOp, Span.endSpan, Span.addAttribute, hm.1]
    | attrsOp kvs =>
      simp [Span.applyOp, Span.endSpan, Span.addAttributes, hm.2.1]
    | annotOp t2 d attrs =>
      simp [Span.applyOp, Span.endSpan, Span.addAnnot, hm.2.2.1]
    | sentOp t2 id cs us =>
      simp [Span.applyOp, Span.endSpan, Span.addSentMessageEvent, hm.2.2.2.1]
    | recvOp t2 id cs us =>
      simp [Span.applyOp, Span.endSpan, Span.addReceivedMessageEvent,
        hm.2.2.2.1]
    | parentLinkOp ctx2 attrs =>
      simp [Span.applyOp, Span.endSpan, Span.addParentLink, hm.2.2.2.2.1]
    | childLinkOp ctx2 attrs =>
      simp [Span.applyOp, Span.endSpan, Span.addChildLink, hm.2.2.2.2.2.1]
    | statusOp c msg =>
      simp [Span.applyOp, Span.endSpan, Span.setStatus, hm.2.2.2.2.2.2]
    | endOp t2 =>
      simp [SpanOp.isMutator] at h

/-- Witness for claim C1 at a concrete ended span and mutator call. -/
theorem spec_C1_end_freezes_witness :
    Span.applyOp paramsDecline (Span.endSpan sampledParentSpan 5)
        (SpanOp.statusOp StatusCode.cancelled "err")
      = Span.endSpan sampledParentSpan 5 :=
  spec_C1_end_freezes paramsDecline sampledParentSpan 5
    (SpanOp.statusOp StatusCode.cancelled "err") rfl

/-- Every reified call is the identity on a span without a
`SpanImpl`. -/
theorem Span.applyOp_noImpl (params : TraceParams) (ctx : SpanContext)
    (op : SpanOp) :
    Span.applyOp params { context := ctx, spanImpl := none } op
      = { context := ctx, spanImpl := none } := by
  cases op <;> simp [Span.applyOp, Span.addAttribute, Span.addAttributes,
    Span.addAnnot, Span.addSentMessageEvent, Span.addReceivedMessageEvent,
    Span.addParentLink, Span.addChildLink, Span.setStatus, Span.endSpan]

/-- Claim C8: every sequence of mutator calls (attributes, annotations,
message events, links, status, `End`) on the blank span is a silent
no-op — the blank span is unchanged by any call sequence — and the
blank span's context is the zero context, which is invalid.  All
operations are total functions, so no error is ever signalled. -/
theorem spec_C8_blank_noop (params : TraceParams) (ops : List SpanOp) :
    ops.foldl (Span.applyOp params) Span.blankSpan = Span.blankSpan
    ∧ Span.blankSpan.context = blankContext
    ∧ blankContext.isValid = false := by
  refine ⟨?_, rfl, rfl⟩
  induction ops with
  | nil => rfl
  | cons op rest ih =>
    have h1 : Span.applyOp params Span.blankSpan op = Span.blankSpan :=
      Span.applyOp_noImpl params blankContext op
    simp [List.foldl_cons, h1, ih]

/-- Claim C6 (code bug in `span.h`): the batched variants do NOT hand
exactly the given attribute pairs to the internal insertion operation.
`AddAttributes` and `AddAnnotation` construct
`std::vector<const AttributeRef> attributes_ref(size)` with
`size = n + 1`, which creates `n + 1` default-constructed entries, and
then push each of the `n` argument pairs onto the back; `AddParentLink`
and `AddChildLink` with `n > 0` attributes do the same with `n`
default-constructed entries.  Evaluated at a single-pair call, the
vector handed over has three entries, not one. -/
theorem spec_C6_extra_defaults :
    addAttributesVector [("k", AttributeValue.boolVal true)]
      = [defaultAttributeRef, defaultAttributeRef,
         ("k", AttributeValue.boolVal true)]
    ∧ addAttributesVector [("k", AttributeValue.boolVal true)]
        ≠ [("k", AttributeValue.boolVal true)]
    ∧ addAnnotVector [("k", AttributeValue.intVal 3)]
        ≠ [("k", AttributeValue.intVal 3)]
    ∧ addLinkVector [("external", AttributeValue.boolVal true)]
        ≠ [("external", AttributeValue.boolVal true)]
    ∧ addLinkVector [] = [] := by
  refine ⟨rfl, ?_, ?_, ?_, rfl⟩ <;> decide

/-- Claim C3: a span started with a sampled local parent has
`IsSampled() == true`, regardless of the sampler supplied in the
options or configured as the process default. -/
theorem spec_C3_parent_sampled (params : TraceParams) (fresh : Nat × Nat)
    (name : String) (t : Nat) (p : Span) (opts : StartSpanOptions)
    (running : List SpanContext) (h : p.context.sampled = true) :
    ((Span.startSpan params fresh name t (some p) opts running).1).IsSampled
      = true := by
  simp [Span.startSpan, startSpanCommon, Span.IsSampled, h]

/-- Witness for claim C3: a concrete sampled parent, with an explicit
always-decline sampler and an always-decline default sampler. -/
theorem spec_C3_parent_sampled_witness :
    ((Span.startSpan paramsDecline (3, 4) "child" 0 (some sampledParentSpan)
        { sampler := some falseSampler, recordEvents := false,
          parentLinks := [] } []).1).IsSampled = true :=
  spec_C3_parent_sampled paramsDecline (3, 4) "child" 0 sampledParentSpan
    { sampler := some falseSampler, recordEvents := false, parentLinks := [] }
    [] rfl

/-- The span returned by the common start path satisfies
`is_recording = is_sampled || record_events`. -/
theorem startSpanCommon_recording (params : TraceParams)
    (opts : StartSpanOptions) (name : String) (t tid sid : Nat)
    (ps : Bool) (ts : String) (running : List SpanContext) :
    ((startSpanCommon params opts name t tid sid ps ts running).1).IsRecording
      = (((startSpanCommon params opts name t tid sid ps ts
            running).1).IsSampled || opts.recordEvents) := by
  unfold startSpanCommon Span.IsRecording Span.IsSampled
  cases hs : (if ps then true
      else samplerDecision opts params tid ps
        (opts.parentLinks.map (fun p => p.context))) <;>
    cases hr : opts.recordEvents <;> simp [hs, hr]

/-- Claim C4: for every span returned by `StartSpan` or
`StartSpanWithRemoteParent`, `IsRecording()` equals
`IsSampled() || record_events`; in particular every sampled span is
recording, and a span started with `record_events = true` whose
sampling decision is false has `IsRecording() == true` and
`IsSampled() == false`. -/
theorem spec_C4_recording_eq (params : TraceParams) (fresh : Nat × Nat)
    (name : String) (t : Nat) (parent : Option Span)
    (opts : StartSpanOptions) (running : List SpanContext)
    (pctx : SpanContext) :
    (((Span.startSpan params fresh name t parent opts
          running).1).IsRecording
        = (((Span.startSpan params fresh name t parent opts
              running).1).IsSampled || opts.recordEvents))
    ∧ (((Span.startSpanWithRemoteParent params fresh name t pctx opts
          running).1).IsRecording
        = (((Span.startSpanWithRemoteParent params fresh name t pctx opts
              running).1).IsSampled || opts.recordEvents))
    ∧ (((Span.startSpan params fresh name t parent opts
          running).1).IsSampled = true →
        ((Span.startSpan params fresh name t parent opts
            running).1).IsRecording = true)
    ∧ (opts.recordEvents = true →
        ((Span.startSpan params fresh name t parent opts
            running).1).IsSampled = false →
        ((Span.startSpan params fresh name t parent opts
            running).1).IsRecording = true) := by
  have h1 : ((Span.startSpan params fresh name t parent opts
        running).1).IsRecording
      = (((Span.startSpan params fresh name t parent opts
            running).1).IsSampled || opts.recordEvents) := by
    cases parent <;> simp [Span.startSpan] <;>
      apply startSpanCommon_recording
  have h2 : ((Span.startSpanWithRemoteParent params fresh name t pctx opts
        running).1).IsRecording
      = (((Span.startSpanWithRemoteParent params fresh name t pctx opts
            running).1).IsSampled || opts.recordEvents) := by
    unfold Span.startSpanWithRemoteParent
    apply startSpanCommon_recording
  refine ⟨h1, h2, ?_, ?_⟩
  · intro hs
    rw [h1, hs]
    rfl
  · intro hr hs
    rw [h1, hs, hr]
    rfl

/-- Witness for claim C4: a root span started with no resolvable
sampler but `record_events = true` is recording and not sampled. -/
theorem spec_C4_recording_eq_witness :
    ((Span.startSpan paramsNoSampler (1, 2) "op" 0 none
        { sampler := none, recordEvents := true, parentLinks := [] }
        []).1).IsRecording = true :=
  (spec_C4_recording_eq paramsNoSampler (1, 2) "op" 0 none
    { sampler := none, recordEvents := true, parentLinks := [] }
    [] blankContext).2.2.2 rfl rfl

/-- Claim C7: a `StartSpan` call with no parent whose effective sampler
declines and with `record_events = false` yields a span that is neither
recording nor sampled, holds a valid context but no `SpanImpl` (so
propagation still carries identity and the sampled flag), and adds no
entry to the running-span registry. -/
theorem spec_C7_nonrecording_root (params : TraceParams) (fresh : Nat × Nat)
    (name : String) (t : Nat) (opts : StartSpanOptions)
    (running : List SpanContext)
    (hs : samplerDecision opts params fresh.1 false
        (opts.parentLinks.map (fun p => p.context)) = false)
    (hr : opts.recordEvents = false)
    (h1 : fresh.1 ≠ 0) (h2 : fresh.2 ≠ 0) :
    (((Span.startSpan params fresh name t none opts
        running).1).IsRecording = false)
    ∧ (((Span.startSpan params fresh name t none opts
          running).1).IsSampled = false)
    ∧ (((Span.startSpan params fresh name t none opts
          running).1).context.isValid = true)
    ∧ (((Span.startSpan params fresh name t none opts
          running).1).spanImpl = none)
    ∧ ((Span.startSpan params fresh name t none opts running).2
        = running) := by
  simp [Span.startSpan, startSpanCommon, Span.IsRecording, Span.IsSampled,
    SpanContext.isValid, hs, hr, h1, h2]

/-- Witness for claim C7 at a concrete declining default sampler. -/
theorem spec_C7_nonrecording_root_witness :
    (((Span.startSpan paramsDecline (1, 1) "op" 0 none
        StartSpanOptions.default0 []).1).IsRecording = false)
    ∧ (((Span.startSpan paramsDecline (1, 1) "op" 0 none
          StartSpanOptions.default0 []).1).IsSampled = false)
    ∧ (((Span.startSpan paramsDecline (1, 1) "op" 0 none
          StartSpanOptions.default0 []).1).context.isValid = true)
    ∧ (((Span.startSpan paramsDecline (1, 1) "op" 0 none
          StartSpanOptions.default0 []).1).spanImpl = none)
    ∧ ((Span.startSpan paramsDecline (1, 1) "op" 0 none
        StartSpanOptions.default0 []).2 = []) :=
  spec_C7_nonrecording_root paramsDecline (1, 1) "op" 0
    StartSpanOptions.default0 [] rfl rfl (by decide) (by decide)

/-- Counterexample to claim C9 as stated: a `StartSpan` call in which
no sampler is resolvable (explicit sampler null, default sampler
absent) but whose local parent is sampled produces a SAMPLED span —
parent-sampled inheritance takes precedence over the fail-closed
sampler policy (spec section 4.2 step 1, and claim C3).  So "no
resolvable sampler implies the sampling decision is false" does not
hold for every call. -/
theorem spec_C9_counterexample :
    effectiveSampler StartSpanOptions.default0 paramsNoSampler = none
    ∧ ((Span.startSpan paramsNoSampler (7, 8) "op" 0
        (some sampledParentSpan) StartSpanOptions.default0 []).1).IsSampled
        = true :=
  ⟨rfl, rfl⟩

/-- Claim C9 (amended): for every `StartSpan` or
`StartSpanWithRemoteParent` call in which no sampler is resolvable (no
explicit sampler and no usable default) AND no sampled parent forces
inheritance (the local parent is absent or unsampled; the remote
parent context is unsampled), the sampling decision is false — the
sampler path fails closed rather than propagating a fault (all start
operations are total functions).  A null (absent) parent pointer is
treated as starting a root span: the new span takes the freshly
generated trace id and span id rather than inheriting any. -/
theorem spec_C9_fail_closed (params : TraceParams) (fresh : Nat × Nat)
    (name : String) (t : Nat) (parent : Option Span)
    (opts : StartSpanOptions) (running : List SpanContext)
    (pctx : SpanContext)
    (hs : effectiveSampler opts params = none)
    (hp : ∀ p, parent = some p → p.context.sampled = false)
    (hc : pctx.sampled = false) :
    (((Span.startSpan params fresh name t parent opts
        running).1).IsSampled = false)
    ∧ (((Span.startSpanWithRemoteParent params fresh name t pctx opts
          running).1).IsSampled = false)
    ∧ (((Span.startSpan params fresh name t none opts
          running).1).context.traceId = fresh.1)
    ∧ (((Span.startSpan params fresh name t none opts
          running).1).context.spanId = fresh.2) := by
  have hdec : ∀ tid ps lcs, samplerDecision opts params tid ps lcs = false := by
    intro tid ps lcs
    unfold samplerDecision
    rw [hs]
  refine ⟨?_, ?_, ?_, ?_⟩
  · cases parent with
    | none =>
      simp [Span.startSpan, startSpanCommon, Span.IsSampled, hdec]
    | some p =>
      have hps : p.context.sampled = false := hp p rfl
      simp [Span.startSpan, startSpanCommon, Span.IsSampled, hps, hdec]
  · simp [Span.startSpanWithRemoteParent, startSpanCommon, Span.IsSampled,
      hc, hdec]
  · simp [Span.startSpan, startSpanCommon]
  · simp [Span.startSpan, startSpanCommon]

/-- Witness for the amended claim C9 at concrete inputs: no explicit
sampler, no default sampler, unsampled local and remote parents. -/
theorem spec_C9_fail_closed_witness :
    (((Span.startSpan paramsNoSampler (7, 8) "op" 0
        (some unsampledParentSpan) StartSpanOptions.default0
        []).1).IsSampled = false)
    ∧ (((Span.startSpanWithRemoteParent paramsNoSampler (7, 8) "op" 0
          unsampledParentSpan.context StartSpanOptions.default0
          []).1).IsSampled = false)
    ∧ (((Span.startSpan paramsNoSampler (7, 8) "op" 0 none
          StartSpanOptions.default0 []).1).context.traceId = 7)
    ∧ (((Span.startSpan paramsNoSampler (7, 8) "op" 0 none
          StartSpanOptions.default0 []).1).context.spanId = 8) :=
  spec_C9_fail_closed paramsNoSampler (7, 8) "op" 0
    (some unsampledParentSpan) StartSpanOptions.default0 []
    unsampledParentSpan.context rfl
    (fun p hp => by injection hp with h; rw [h.symm]; rfl) rfl

/-- Folding bounded FIFO pushes over a buffer that is within capacity
keeps exactly the most recent `maxLen` entries: the result is the
concatenation with the oldest overflow dropped. -/
theorem foldl_fifoPush_drop {α : Type _} (maxLen : Nat) (hmax : 0 < maxLen)
    (xs : List α) :
    ∀ (l : List α), l.length ≤ maxLen →
      xs.foldl (fifoPush maxLen) l
        = (l ++ xs).drop (l.length + xs.length - maxLen) := by
  induction xs with
  | nil =>
    intro l hl
    simp [Nat.sub_eq_zero_of_le hl]
  | cons x rest ih =>
    intro l hl
    rw [List.foldl_cons]
    by_cases hlt : l.length < maxLen
    · have hstep : fifoPush maxLen l x = l ++ [x] := by
        simp [fifoPush, hlt]
      have hlen : (l ++ [x]).length ≤ maxLen := by
        simp
        omega
      rw [hstep, ih (l ++ [x]) hlen]
      have harr : (l ++ [x]) ++ rest = l ++ x :: rest := by simp
      have hidx : (l ++ [x]).length + rest.length - maxLen
          = l.length + (x :: rest).length - maxLen := by
        simp
        omega
      rw [harr, hidx]
    · have hlen : l.length = maxLen := by omega
      have hstep : fifoPush maxLen l x = l.drop 1 ++ [x] := by
        simp [fifoPush, hlt]
      have hlen2 : (l.drop 1 ++ [x]).length = maxLen := by
        simp
        omega
      rw [hstep, ih (l.drop 1 ++ [x]) (le_of_eq hlen2)]
      have harr : (l.drop 1 ++ [x]) ++ rest = l.drop 1 ++ x :: rest := by
        simp
      have hidx1 : (l.drop 1 ++ [x]).length + rest.length - maxLen
          = rest.length := by
        rw [hlen2]
        omega
      have hidx2 : l.length + (x :: rest).length - maxLen
          = rest.length + 1 := by
        simp [hlen]
      have e1 : (l ++ x :: rest).drop (rest.length + 1)
          = ((l ++ x :: rest).drop 1).drop rest.length := by
        rw [List.drop_drop, Nat.add_comm]
      have e2 : (l ++ x :: rest).drop 1 = l.drop 1 ++ x :: rest := by
        rw [List.drop_append_eq_append_drop]
        have h10 : 1 - l.length = 0 := by omega
        rw [h10]
        simp
      rw [harr, hidx1, hidx2, e1, e2]

/-- One message-event insertion step, dispatching on the event's
direction to `AddSentMessageEvent` or `AddReceivedMessageEvent`. -/
def msgStep (params : TraceParams) (sp : Span) (e : MessageEvent) : Span :=
  match e.dir with
  | MessageEventType.sent =>
    sp.addSentMessageEvent params e.time e.messageId e.compressedSize
      e.uncompressedSize
  | MessageEventType.received =>
    sp.addReceivedMessageEvent params e.time e.messageId e.compressedSize
      e.uncompressedSize

/-- A message-event step on a recording span pushes the event record
into the shared bounded message-event sequence. -/
theorem msgStep_some (params : TraceParams) (ctx : SpanContext)
    (impl : SpanImpl) (e : MessageEvent) :
    msgStep params { context := ctx, spanImpl := some impl } e
      = { context := ctx,
          spanImpl := some (impl.addMessageEvent params.maxMessageEvents e) } := by
  obtain ⟨d, id, cs, us, t⟩ := e
  cases d <;>
    simp [msgStep, Span.addSentMessageEvent, Span.addReceivedMessageEvent]

/-- Replace the annotation sequence of a record. -/
def withAnnots (impl : SpanImpl) (l : List Annot) : SpanImpl :=
  { impl with annotations := l }

/-- Replace the message-event sequence of a record. -/
def withMsgEvents (impl : SpanImpl) (l : List MessageEvent) : SpanImpl :=
  { impl with messageEvents := l }

/-- Replace the parent-link sequence of a record. -/
def withParentLinks (impl : SpanImpl) (l : List Link) : SpanImpl :=
  { impl with parentLinks := l }

/-- Replace the child-link sequence of a record. -/
def withChildLinks (impl : SpanImpl) (l : List Link) : SpanImpl :=
  { impl with childLinks := l }

/-- The annotation record built from a (time, description, attributes)
argument triple. -/
def mkAnnotOf (a : Nat × String × List AttributeRef) : Annot :=
  { time := a.1, description := a.2.1, attributes := a.2.2 }

/-- The link record built from a (context, attributes) argument pair. -/
def mkLinkOf (pc : SpanContext × List AttributeRef) : Link :=
  { context := pc.1, attributes := pc.2 }

/-- Folding annotation insertions over a recording, not-ended span
folds FIFO pushes over its annotation sequence. -/
theorem foldl_addAnnot_comm (params : TraceParams) (ctx : SpanContext)
    (notes : List (Nat × String × List AttributeRef)) :
    ∀ (impl : SpanImpl), impl.ended = false →
      notes.foldl (fun sp a => Span.addAnnot params sp a.1 a.2.1 a.2.2)
          { context := ctx, spanImpl := some impl }
        = { context := ctx, spanImpl := some (withAnnots impl
            ((notes.map mkAnnotOf).foldl (fifoPush params.maxAnnotations)
              impl.annotations)) } := by
  induction notes with
  | nil =>
    intro impl h
    simp [withAnnots]
  | cons a rest ih =>
    intro impl h
    rw [List.foldl_cons]
    have hstep : Span.addAnnot params { context := ctx, spanImpl := some impl }
          a.1 a.2.1 a.2.2
        = { context := ctx, spanImpl := some (withAnnots impl
            (fifoPush params.maxAnnotations impl.annotations (mkAnnotOf a))) } := by
      simp [Span.addAnnot, SpanImpl.addAnnot, h, withAnnots, mkAnnotOf]
    have h2 : (withAnnots impl (fifoPush params.maxAnnotations
        impl.annotations (mkAnnotOf a))).ended = false := h
    rw [hstep, ih _ h2]
    simp [withAnnots]

/-- Folding message-event insertions over a recording, not-ended span
folds FIFO pushes over its message-event sequence. -/
theorem foldl_msgStep_comm (params : TraceParams) (ctx : SpanContext)
    (evs : List MessageEvent) :
    ∀ (impl : SpanImpl), impl.ended = false →
      evs.foldl (msgStep params) { context := ctx, spanImpl := some impl }
        = { context := ctx, spanImpl := some (withMsgEvents impl
            (evs.foldl (fifoPush params.maxMessageEvents)
              impl.messageEvents)) } := by
  induction evs with
  | nil =>
    intro impl h
    simp [withMsgEvents]
  | cons e rest ih =>
    intro impl h
    rw [List.foldl_cons, msgStep_some]
    have hstep : SpanImpl.addMessageEvent params.maxMessageEvents impl e
        = withMsgEvents impl
            (fifoPush params.maxMessageEvents impl.messageEvents e) := by
      simp [SpanImpl.addMessageEvent, h, withMsgEvents]
    have h2 : (withMsgEvents impl (fifoPush params.maxMessageEvents
        impl.messageEvents e)).ended = false := h
    rw [hstep, ih _ h2]
    simp [withMsgEvents]

/-- Folding parent-link insertions over a recording, not-ended span
folds FIFO pushes over its parent-link sequence. -/
theorem foldl_addParentLink_comm (params : TraceParams) (ctx : SpanContext)
    (links : List (SpanContext × List AttributeRef)) :
    ∀ (impl : SpanImpl), impl.ended = false →
      links.foldl (fun sp pc => Span.addParentLink params sp pc.1 pc.2)
          { context := ctx, spanImpl := some impl }
        = { context := ctx, spanImpl := some (withParentLinks impl
            ((links.map mkLinkOf).foldl (fifoPush params.maxLinks)
              impl.parentLinks)) } := by
  induction links with
  | nil =>
    intro impl h
    simp [withParentLinks]
  | cons pc rest ih =>
    intro impl h
    rw [List.foldl_cons]
    have hstep : Span.addParentLink params
          { context := ctx, spanImpl := some impl } pc.1 pc.2
        = { context := ctx, spanImpl := some (withParentLinks impl
            (fifoPush params.maxLinks impl.parentLinks (mkLinkOf pc))) } := by
      simp [Span.addParentLink, SpanImpl.addParentLink, h, withParentLinks,
        mkLinkOf]
    have h2 : (withParentLinks impl (fifoPush params.maxLinks
        impl.parentLinks (mkLinkOf pc))).ended = false := h
    rw [hstep, ih _ h2]
    simp [withParentLinks]

/-- Folding child-link insertions over a recording, not-ended span
folds FIFO pushes over its child-link sequence. -/
theorem foldl_addChildLink_comm (params : TraceParams) (ctx : SpanContext)
    (links : List (SpanContext × List AttributeRef)) :
    ∀ (impl : SpanImpl), impl.ended = false →
      links.foldl (fun sp cc => Span.addChildLink params sp cc.1 cc.2)
          { context := ctx, spanImpl := some impl }
        = { context := ctx, spanImpl := some (withChildLinks impl
            ((links.map mkLinkOf).foldl (fifoPush params.maxLinks)
              impl.childLinks)) } := by
  induction links with
  | nil =>
    intro impl h
    simp [withChildLinks]
  | cons cc rest ih =>
    intro impl h
    rw [List.foldl_cons]
    have hstep : Span.addChildLink params
          { context := ctx, spanImpl := some impl } cc.1 cc.2
        = { context := ctx, spanImpl := some (withChildLinks impl
            (fifoPush params.maxLinks impl.childLinks (mkLinkOf cc))) } := by
      simp [Span.addChildLink, SpanImpl.addChildLink, h, withChildLinks,
        mkLinkOf]
    have h2 : (withChildLinks impl (fifoPush params.maxLinks
        impl.childLinks (mkLinkOf cc))).ended = false := h
    rw [hstep, ih _ h2]
    simp [withChildLinks]

/-- Claim C5: for the annotation, message-event, parent-link and
child-link containers independently, inserting more than the
configured maximum number of entries into a recording, not-ended span
(freshly started, so the containers begin empty) retains exactly the
most recent maximum-many entries, in insertion order, the oldest
evicted first at each overflow. -/
theorem spec_C5_fifo_eviction (params : TraceParams)
    (hA : 0 < params.maxAnnotations) (hM : 0 < params.maxMessageEvents)
    (hL : 0 < params.maxLinks) (ctx : SpanContext) (name : String) (t0 : Nat)
    (notes : List (Nat × String × List AttributeRef))
    (hN : params.maxAnnotations < notes.length)
    (evs : List MessageEvent)
    (hE : params.maxMessageEvents < evs.length)
    (plinks clinks : List (SpanContext × List AttributeRef))
    (hP : params.maxLinks < plinks.length)
    (hC : params.maxLinks < clinks.length) :
    (Option.map (fun i => i.annotations)
        ((notes.foldl (fun sp a => Span.addAnnot params sp a.1 a.2.1 a.2.2)
          { context := ctx, spanImpl := some (SpanImpl.mk0 name t0) }).spanImpl)
      = some ((notes.map mkAnnotOf).drop
          (notes.length - params.maxAnnotations)))
    ∧ ((notes.map mkAnnotOf).drop
        (notes.length - params.maxAnnotations)).length
        = params.maxAnnotations
    ∧ (Option.map (fun i => i.messageEvents)
        ((evs.foldl (msgStep params)
          { context := ctx, spanImpl := some (SpanImpl.mk0 name t0) }).spanImpl)
      = some (evs.drop (evs.length - params.maxMessageEvents)))
    ∧ (evs.drop (evs.length - params.maxMessageEvents)).length
        = params.maxMessageEvents
    ∧ (Option.map (fun i => i.parentLinks)
        ((plinks.foldl (fun sp pc => Span.addParentLink params sp pc.1 pc.2)
          { context := ctx, spanImpl := some (SpanImpl.mk0 name t0) }).spanImpl)
      = some ((plinks.map mkLinkOf).drop (plinks.length - params.maxLinks)))
    ∧ ((plinks.map mkLinkOf).drop (plinks.length - params.maxLinks)).length
        = params.maxLinks
    ∧ (Option.map (fun i => i.childLinks)
        ((clinks.foldl (fun sp cc => Span.addChildLink params sp cc.1 cc.2)
          { context := ctx, spanImpl := some (SpanImpl.mk0 name t0) }).spanImpl)
      = some ((clinks.map mkLinkOf).drop (clinks.length - params.maxLinks)))
    ∧ ((clinks.map mkLinkOf).drop (clinks.length - params.maxLinks)).length
        = params.maxLinks := by
  have hann := foldl_addAnnot_comm params ctx notes (SpanImpl.mk0 name t0) rfl
  have hmsg := foldl_msgStep_comm params ctx evs (SpanImpl.mk0 name t0) rfl
  have hpar :=
    foldl_addParentLink_comm params ctx plinks (SpanImpl.mk0 name t0) rfl
  have hchi :=
    foldl_addChildLink_comm params ctx clinks (SpanImpl.mk0 name t0) rfl
  refine ⟨?_, ?_, ?_, ?_, ?_, ?_, ?_, ?_⟩
  · rw [hann]
    have hfold := foldl_fifoPush_drop params.maxAnnotations hA
      (notes.map mkAnnotOf) [] (by simp)
    simp [withAnnots, SpanImpl.mk0] at hfold ⊢
    rw [hfold]
  · simp
    omega
  · rw [hmsg]
    have hfold := foldl_fifoPush_drop params.maxMessageEvents hM
      evs [] (by simp)
    simp [withMsgEvents, SpanImpl.mk0] at hfold ⊢
    rw [hfold]
  · simp
    omega
  · rw [hpar]
    have hfold := foldl_fifoPush_drop params.maxLinks hL
      (plinks.map mkLinkOf) [] (by simp)
    simp [withParentLinks, SpanImpl.mk0] at hfold ⊢
    rw [hfold]
  · simp
    omega
  · rw [hchi]
    have hfold := foldl_fifoPush_drop params.maxLinks hL
      (clinks.map mkLinkOf) [] (by simp)
    simp [withChildLinks, SpanImpl.mk0] at hfold ⊢
    rw [hfold]
  · simp
    omega

/-- Concrete annotation-argument triples for the C5 witness. -/
def notesW : List (Nat × String × List AttributeRef) :=
  [(1, "a", []), (2, "b", [])]

/-- Concrete message events for the C5 witness. -/
def evsW : List MessageEvent :=
  [{ dir := MessageEventType.sent, messageId := 1, compressedSize := 2,
     uncompressedSize := 3, time := 4 },
   { dir := MessageEventType.received, messageId := 5, compressedSize := 6,
     uncompressedSize := 7, time := 8 }]

/-- Concrete link-argument pairs for the C5 witness. -/
def linksW : List (SpanContext × List AttributeRef) :=
  [({ traceId := 1, spanId := 2, sampled := true, traceState := "" }, []),
   ({ traceId := 3, spanId := 4, sampled := false, traceState := "" }, [])]

/-- Witness for claim C5: two insertions against capacity one, for each
container, keep exactly the most recent entry. -/
theorem spec_C5_fifo_eviction_witness :
    (Option.map (fun i => i.annotations)
        ((notesW.foldl
          (fun sp a => Span.addAnnot paramsDecline sp a.1 a.2.1 a.2.2)
          { context := blankContext,
            spanImpl := some (SpanImpl.mk0 "w" 0) }).spanImpl)
      = some ((notesW.map mkAnnotOf).drop
          (notesW.length - paramsDecline.maxAnnotations)))
    ∧ ((notesW.map mkAnnotOf).drop
        (notesW.length - paramsDecline.maxAnnotations)).length
        = paramsDecline.maxAnnotations
    ∧ (Option.map (fun i => i.messageEvents)
        ((evsW.foldl (msgStep paramsDecline)
          { context := blankContext,
            spanImpl := some (SpanImpl.mk0 "w" 0) }).spanImpl)
      = some (evsW.drop (evsW.length - paramsDecline.maxMessageEvents)))
    ∧ (evsW.drop (evsW.length - paramsDecline.maxMessageEvents)).length
        = paramsDecline.maxMessageEvents
    ∧ (Option.map (fun i => i.parentLinks)
        ((linksW.foldl
          (fun sp pc => Span.addParentLink paramsDecline sp pc.1 pc.2)
          { context := blankContext,
            spanImpl := some (SpanImpl.mk0 "w" 0) }).spanImpl)
      = some ((linksW.map mkLinkOf).drop
          (linksW.length - paramsDecline.maxLinks)))
    ∧ ((linksW.map mkLinkOf).drop
        (linksW.length - paramsDecline.maxLinks)).length
        = paramsDecline.maxLinks
    ∧ (Option.map (fun i => i.childLinks)
        ((linksW.foldl
          (fun sp cc => Span.addChildLink paramsDecline sp cc.1 cc.2)
          { context := blankContext,
            spanImpl := some (SpanImpl.mk0 "w" 0) }).spanImpl)
      = some ((linksW.map mkLinkOf).drop
          (linksW.length - paramsDecline.maxLinks)))
    ∧ ((linksW.map mkLinkOf).drop
        (linksW.length - paramsDecline.maxLinks)).length
        = paramsDecline.maxLinks :=
  spec_C5_fifo_eviction paramsDecline (by decide) (by decide) (by decide)
    blankContext "w" 0 notesW (by decide) evsW (by decide) linksW linksW
    (by decide) (by decide)

/-- Replace the attribute mapping of a record. -/
def withAttrs (impl : SpanImpl) (l : List AttributeRef) : SpanImpl :=
  { impl with attributes := l }

/-- A key outside the mapping matches no entry. -/
theorem any_key_eq_false (m : List AttributeRef) (k : String)
    (h : k ∉ keysOf m) : m.any (fun e => e.1 == k) = false := by
  induction m with
  | nil => rfl
  | cons e rest ih =>
    simp only [keysOf, List.map_cons, List.mem_cons] at h
    push_neg at h
    rw [List.any_cons]
    have h1 : (e.1 == k) = false := by
      simp only [beq_eq_false_iff_ne, ne_eq]
      intro heq
      exact h.1 heq.symm
    rw [h1]
    simp only [Bool.false_or]
    exact ih h.2

/-- A key inside the mapping matches some entry. -/
theorem any_key_eq_true (m : List AttributeRef) (k : String)
    (h : k ∈ keysOf m) : m.any (fun e => e.1 == k) = true := by
  simp only [keysOf] at h
  obtain ⟨e, he, heq⟩ := List.mem_map.mp h
  rw [List.any_eq_true]
  exact ⟨e, he, by simp [heq]⟩

/-- Filtering out an absent key changes nothing. -/
theorem filter_ne_eq_self (m : List AttributeRef) (k : String)
    (h : k ∉ keysOf m) : m.filter (fun e => e.1 != k) = m := by
  apply List.filter_eq_self.mpr
  intro e he
  simp only [bne_iff_ne, ne_eq]
  intro heq
  exact h (heq ▸ List.mem_map_of_mem (fun x => x.1) he)

/-- Filtering out a key that occurs (with no duplicate keys) removes
exactly one entry. -/
theorem length_filter_of_mem (m : List AttributeRef) (k : String)
    (hnd : (keysOf m).Nodup) (hk : k ∈ keysOf m) :
    (m.filter (fun e => e.1 != k)).length + 1 = m.length := by
  induction m with
  | nil => simp [keysOf] at hk
  | cons e rest ih =>
    simp only [keysOf, List.map_cons, List.nodup_cons] at hnd
    simp only [keysOf, List.map_cons, List.mem_cons] at hk
    rw [List.filter_cons]
    by_cases he : e.1 = k
    · have hb : (e.1 != k) = false := by simp [he]
      rw [hb]
      simp only [Bool.false_eq_true, if_false]
      have hrest : k ∉ keysOf rest := by
        rw [← he]
        exact hnd.1
      rw [filter_ne_eq_self rest k hrest]
      simp
    · have hb : (e.1 != k) = true := by simp [he]
      rw [hb]
      simp only [if_true]
      have hk2 : k ∈ keysOf rest := by
        rcases hk with h1 | h2
        · exact absurd h1.symm he
        · exact h2
      have := ih hnd.2 hk2
      simp only [List.length_cons]
      omega

/-- Filtering out one key preserves the first match of every other
key. -/
theorem find_filter_ne (m : List AttributeRef) (kk k2 : String)
    (hne : k2 ≠ kk) :
    (m.filter (fun e => e.1 != kk)).find? (fun e => e.1 == k2)
      = m.find? (fun e => e.1 == k2) := by
  induction m with
  | nil => rfl
  | cons e rest ih =>
    rw [List.filter_cons]
    by_cases he : e.1 = kk
    · have hb : (e.1 != kk) = false := by simp [he]
      rw [hb]
      simp only [Bool.false_eq_true, if_false]
      have hb2 : (e.1 == k2) = false := by
        simp only [beq_eq_false_iff_ne, ne_eq, he]
        exact fun h => hne h.symm
      rw [List.find?_cons_of_neg _ (by simp [hb2])]
      exact ih
    · have hb : (e.1 != kk) = true := by simp [he]
      rw [hb]
      simp only [if_true]
      by_cases hk2 : e.1 = k2
      · rw [List.find?_cons_of_pos _ (by simp [hk2]),
          List.find?_cons_of_pos _ (by simp [hk2])]
      · rw [List.find?_cons_of_neg _ (by simp [hk2]),
          List.find?_cons_of_neg _ (by simp [hk2])]
        exact ih

/-- Appending the new pair after entries that all miss its key makes
the lookup of that key hit the new pair. -/
theorem lookup_append_self (m : List AttributeRef) (kv : AttributeRef)
    (h : ∀ e ∈ m, (e.1 == kv.1) = false) :
    lookupAttr kv.1 (m ++ [kv]) = some kv.2 := by
  unfold lookupAttr
  induction m with
  | nil => simp
  | cons e rest ih =>
    rw [List.cons_append,
      List.find?_cons_of_neg _ (by simp [h e (List.mem_cons_self e rest)])]
    exact ih (fun x hx => h x (List.mem_cons_of_mem e hx))

/-- Folding fresh-key insertions (all keys pairwise distinct and
disjoint from the existing mapping) over a within-capacity mapping
behaves exactly like the bounded FIFO: the oldest entries beyond
capacity are dropped. -/
theorem foldl_upsert_fresh (maxA : Nat) (hmax : 0 < maxA)
    (kvs : List AttributeRef) :
    ∀ (m : List AttributeRef), (keysOf m ++ keysOf kvs).Nodup →
      m.length ≤ maxA →
      kvs.foldl (upsertAttr maxA) m
        = (m ++ kvs).drop (m.length + kvs.length - maxA) := by
  induction kvs with
  | nil =>
    intro m hnd hl
    simp [Nat.sub_eq_zero_of_le hl]
  | cons kv rest ih =>
    intro m hnd hl
    have hnd0 : ((m.map (fun e => e.1))
        ++ (kv.1 :: rest.map (fun e => e.1))).Nodup := by
      simpa [keysOf] using hnd
    have hdisj : kv.1 ∉ keysOf m := by
      intro hmem
      exact (List.nodup_append.mp hnd0).2.2 hmem (List.mem_cons_self _ _)
    have hany : m.any (fun e => e.1 == kv.1) = false :=
      any_key_eq_false m kv.1 hdisj
    rw [List.foldl_cons]
    by_cases hlt : m.length < maxA
    · have hstep : upsertAttr maxA m kv = m ++ [kv] := by
        simp [upsertAttr, hany, hlt]
      have hnd2 : (keysOf (m ++ [kv]) ++ keysOf rest).Nodup := by
        simpa [keysOf, List.append_assoc] using hnd0
      have hlen2 : (m ++ [kv]).length ≤ maxA := by
        simp
        omega
      rw [hstep, ih (m ++ [kv]) hnd2 hlen2]
      have harr : (m ++ [kv]) ++ rest = m ++ kv :: rest := by simp
      have hidx : (m ++ [kv]).length + rest.length - maxA
          = m.length + (kv :: rest).length - maxA := by
        simp
        omega
      rw [harr, hidx]
    · have hlen : m.length = maxA := by omega
      have hstep : upsertAttr maxA m kv = m.drop 1 ++ [kv] := by
        simp [upsertAttr, hany, hlt]
      have hsub0 : List.Sublist ((m.drop 1).map (fun e => e.1))
          (m.map (fun e => e.1)) :=
        (List.drop_sublist 1 m).map _
      have hsub : List.Sublist
          ((m.drop 1).map (fun e => e.1) ++ (kv.1 :: rest.map (fun e => e.1)))
          (m.map (fun e => e.1) ++ (kv.1 :: rest.map (fun e => e.1))) :=
        hsub0.append_right _
      have hnd2 : (keysOf (m.drop 1 ++ [kv]) ++ keysOf rest).Nodup := by
        have := List.Nodup.sublist hsub hnd0
        simpa [keysOf, List.append_assoc] using this
      have hlen2 : (m.drop 1 ++ [kv]).length ≤ maxA := by
        simp
        omega
      rw [hstep, ih (m.drop 1 ++ [kv]) hnd2 hlen2]
      have harr : (m.drop 1 ++ [kv]) ++ rest = m.drop 1 ++ kv :: rest := by
        simp
      have hidx1 : (m.drop 1 ++ [kv]).length + rest.length - maxA
          = rest.length := by
        simp
        omega
      have hidx2 : m.length + (kv :: rest).length - maxA
          = rest.length + 1 := by
        simp [hlen]
      have e1 : (m ++ kv :: rest).drop (rest.length + 1)
          = ((m ++ kv :: rest).drop 1).drop rest.length := by
        rw [List.drop_drop, Nat.add_comm]
      have e2 : (m ++ kv :: rest).drop 1 = m.drop 1 ++ kv :: rest := by
        rw [List.drop_append_eq_append_drop]
        have h10 : 1 - m.length = 0 := by omega
        rw [h10]
        simp
      rw [harr, hidx1, hidx2, e1, e2]

/-- Appending an entry that fails the predicate does not change the
first match. -/
theorem find_append_singleton_neg (A : List AttributeRef)
    (b : AttributeRef) (p : AttributeRef → Bool) (h : p b = false) :
    (A ++ [b]).find? p = A.find? p := by
  induction A with
  | nil =>
    simp [List.find?, h]
  | cons a rest ih =>
    by_cases hpa : p a = true
    · rw [List.cons_append, List.find?_cons_of_pos _ hpa,
        List.find?_cons_of_pos _ hpa]
    · rw [List.cons_append,
        List.find?_cons_of_neg _ (by simp [hpa]),
        List.find?_cons_of_neg _ (by simp [hpa])]
      exact ih

/-- Claim C2: on the bounded attribute mapping of a recording,
not-ended span — (1) inserting an already-present key updates that
key's value without changing the mapping's size and without disturbing
the lookup of any other key; (2) inserting a fresh key into a full
mapping evicts exactly the oldest-inserted entry that has not been
re-touched (the front of the touch-ordered mapping) and keeps all
others; (3) after `maxA + k` insertions with pairwise-distinct keys
(`k > 0`) starting empty, the mapping holds exactly the last `maxA`
inserted pairs, each key bound to its given value, and the `k`
oldest-inserted keys are absent; (4) `Span::AddAttribute` applies this
insertion rule to the held record of a recording, not-ended span. -/
theorem spec_C2_attr_map (maxA : Nat) (m : List AttributeRef)
    (kv : AttributeRef) (hnd : (keysOf m).Nodup) :
    (kv.1 ∈ keysOf m →
      (upsertAttr maxA m kv).length = m.length
      ∧ lookupAttr kv.1 (upsertAttr maxA m kv) = some kv.2
      ∧ ∀ k2, k2 ≠ kv.1 →
          lookupAttr k2 (upsertAttr maxA m kv) = lookupAttr k2 m)
    ∧ (kv.1 ∉ keysOf m → m.length = maxA → 0 < maxA →
        upsertAttr maxA m kv = m.drop 1 ++ [kv])
    ∧ (∀ (kvs : List AttributeRef) (k : Nat), (keysOf kvs).Nodup →
        kvs.length = maxA + k → 0 < k → 0 < maxA →
        kvs.foldl (upsertAttr maxA) [] = kvs.drop k
        ∧ (kvs.foldl (upsertAttr maxA) []).length = maxA
        ∧ ∀ e ∈ kvs.take k, e.1 ∉ keysOf (kvs.foldl (upsertAttr maxA) []))
    ∧ (∀ (params : TraceParams) (ctx : SpanContext) (impl : SpanImpl),
        impl.ended = false →
        Span.addAttribute params { context := ctx, spanImpl := some impl } kv
          = { context := ctx, spanImpl := some (withAttrs impl
              (upsertAttr params.maxAttributes impl.attributes kv)) }) := by
  refine ⟨?_, ?_, ?_, ?_⟩
  · intro hk
    have hany := any_key_eq_true m kv.1 hk
    have hres : upsertAttr maxA m kv
        = m.filter (fun e => e.1 != kv.1) ++ [kv] := by
      simp [upsertAttr, hany]
    refine ⟨?_, ?_, ?_⟩
    · rw [hres]
      have := length_filter_of_mem m kv.1 hnd hk
      simp
      omega
    · rw [hres]
      apply lookup_append_self
      intro e he
      have hme := (List.mem_filter.mp he).2
      simp only [bne_iff_ne, ne_eq] at hme
      simp only [beq_eq_false_iff_ne, ne_eq]
      exact hme
    · intro k2 hk2
      rw [hres]
      unfold lookupAttr
      have hb : ((fun e => e.1 == k2) kv) = false := by
        simp only [beq_eq_false_iff_ne, ne_eq]
        exact fun h => hk2 h.symm
      rw [find_append_singleton_neg _ kv _ hb,
        find_filter_ne m kv.1 k2 hk2]
  · intro hnk hlen hmaxA
    have hany := any_key_eq_false m kv.1 hnk
    simp [upsertAttr, hany, hlen]
  · intro kvs k hndk hklen hkpos hmaxA
    have hfold := foldl_upsert_fresh maxA hmaxA kvs []
      (by simpa [keysOf] using hndk) (by simp)
    have h1 : kvs.foldl (upsertAttr maxA) [] = kvs.drop k := by
      rw [hfold]
      simp
      have : kvs.length - maxA = k := by omega
      rw [this]
    refine ⟨h1, ?_, ?_⟩
    · rw [h1]
      simp
      omega
    · intro e he
      rw [h1]
      have hsplit : keysOf (kvs.take k) ++ keysOf (kvs.drop k)
          = keysOf kvs := by
        simp [keysOf, ← List.map_append]
      have hnd3 : (keysOf (kvs.take k) ++ keysOf (kvs.drop k)).Nodup := by
        rw [hsplit]
        exact hndk
      have hdisj := (List.nodup_append.mp hnd3).2.2
      exact fun hmem =>
        hdisj (List.mem_map_of_mem (fun x => x.1) he) hmem
  · intro params ctx impl hend
    simp [Span.addAttribute, SpanImpl.addAttribute, hend, withAttrs]

/-- Concrete two-entry attribute mapping for the C2 witness. -/
def mW : List AttributeRef :=
  [("a", AttributeValue.intVal 1), ("b", AttributeValue.intVal 2)]

/-- Concrete three distinct-key insertions for the C2 witness. -/
def kvsW : List AttributeRef :=
  [("a", AttributeValue.intVal 1), ("b", AttributeValue.intVal 2),
   ("c", AttributeValue.intVal 3)]

/-- Witness for claim C2 at capacity two: updating key "b" keeps the
size; inserting fresh key "c" into the full mapping evicts the oldest
entry; three distinct-key insertions at capacity two keep the last
two; `Span::AddAttribute` applies the rule to a fresh recording
span. -/
theorem spec_C2_attr_map_witness :
    (upsertAttr 2 mW ("b", AttributeValue.intVal 9)).length = mW.length
    ∧ lookupAttr "b" (upsertAttr 2 mW ("b", AttributeValue.intVal 9))
        = some (AttributeValue.intVal 9)
    ∧ upsertAttr 2 mW ("c", AttributeValue.intVal 3)
        = mW.drop 1 ++ [("c", AttributeValue.intVal 3)]
    ∧ kvsW.foldl (upsertAttr 2) [] = kvsW.drop 1
    ∧ Span.addAttribute paramsDecline
          { context := blankContext, spanImpl := some (SpanImpl.mk0 "w" 0) }
          ("c", AttributeValue.intVal 3)
        = { context := blankContext,
            spanImpl := some (withAttrs (SpanImpl.mk0 "w" 0)
              (upsertAttr paramsDecline.maxAttributes
                (SpanImpl.mk0 "w" 0).attributes
                ("c", AttributeValue.intVal 3))) } := by
  have h1 := spec_C2_attr_map 2 mW ("b", AttributeValue.intVal 9) (by decide)
  have h2 := spec_C2_attr_map 2 mW ("c", AttributeValue.intVal 3) (by decide)
  exact ⟨(h1.1 (by decide)).1, (h1.1 (by decide)).2.1,
    h2.2.1 (by decide) rfl (by decide),
    (h2.2.2.1 kvsW 1 (by decide) rfl (by decide) (by decide)).1,
    h2.2.2.2 paramsDecline blankContext (SpanImpl.mk0 "w" 0) rfl⟩

/-- Sequential consequence of the per-span lock's linearization: any
serialization of pairwise-distinct-key insertions into an empty
mapping yields exactly `min` of the insertion count and the capacity
(the post-join attribute count of claim C10; the lock-based
serialization itself is a concurrent-execution property outside this
embedding). -/
theorem foldl_upsert_distinct_length (maxA : Nat) (hmax : 0 < maxA)
    (kvs : List AttributeRef) (hnd : (keysOf kvs).Nodup) :
    (kvs.foldl (upsertAttr maxA) []).length = min kvs.length maxA := by
  have h := foldl_upsert_fresh maxA hmax kvs []
    (by simpa [keysOf] using hnd) (by simp)
  rw [h]
  simp
  omega

end OpenCensus
